import Mathlib

/-!
Verification of the recommendation engine in `recommender.py`
(matrix-factorization recommender: SGD trainer, recommendation
generation, feedback recording, ratings reload).

Numbers are modelled as rationals (the Python code uses floats; none of
the verified claims depend on rounding).  A pandas `DataFrame` holding a
factor matrix is modelled as an association list of `(key, row)` pairs in
row order, where the key is the natural identifier (`course_number` /
`student_number`) used as the index.  Fallible operations (a `.loc`
lookup of a missing key raises `KeyError`, `assert` raises, `pivot`
raises `ValueError` on duplicate entries) return `Except PyError`.
-/

/-- A factor row (one row of `Q` or `P`, length = `number_factors`). -/
abbrev Vec := List ℚ

/-- A `DataFrame` keyed by a natural identifier: rows in order, each
with its index label. -/
abbrev KeyedMatrix := List (String × Vec)

/-- Exceptions the Python code can raise on the modelled paths. -/
inductive PyError where
  /-- `assert number_recommendations in range(1, 4)` failure. -/
  | invalidInput : PyError
  /-- `assert self.trained` failure. -/
  | notTrained : PyError
  /-- pandas `.loc[key]` with a key absent from the index. -/
  | keyError : PyError
  /-- pandas `DataFrame.pivot` with duplicate (index, columns) entries. -/
  | valueError : PyError
  deriving DecidableEq, Repr

/-- `np.dot(q, p)` on two factor rows. -/
def dot (q p : Vec) : ℚ := (List.zipWith (· * ·) q p).sum

/-- Elementwise sum of two rows (`q + q_update`). -/
def vadd (a b : Vec) : Vec := List.zipWith (· + ·) a b

/-- Elementwise difference of two rows. -/
def vsub (a b : Vec) : Vec := List.zipWith (· - ·) a b

/-- Scalar times row (`epsilon * p`, `2 * regularization_parameter * q`). -/
def smul (c : ℚ) (v : Vec) : Vec := v.map (fun x => c * x)

/-- `.loc[key]` on a keyed frame or series: the value at the first
matching index label, `none` if the key is absent (pandas raises
`KeyError` then). -/
def findRow {α : Type} (M : List (String × α)) (k : String) : Option α :=
  match M with
  | [] => none
  | (k₁, v) :: rest => if k₁ = k then some v else findRow rest k

/-- `df.loc[key] = v` for a key present in the index: replaces that row
in place, keeping row order. -/
def setRow (M : KeyedMatrix) (k : String) (v : Vec) : KeyedMatrix :=
  M.map (fun kv => if kv.1 = k then (kv.1, v) else kv)

/-- One known rating, a line `student_number,course_number,rating` of the
known-ratings file. -/
structure KnownRating where
  student_number : String
  course_number : String
  rating : ℚ
  deriving DecidableEq, Repr

/-- The body of the inner SGD loop of `train_model` for one known rating:
read the pre-update rows `q = Q.loc[course]`, `p = P.loc[student]`,
form `epsilon = 2 * (rating - np.dot(q, p))`, compute both updates from
the same snapshot and write the two rows back. -/
def sgdStep (learning_rate regularization_parameter : ℚ)
    (QP : KeyedMatrix × KeyedMatrix) (t : KnownRating) :
    Except PyError (KeyedMatrix × KeyedMatrix) :=
  match findRow QP.1 t.course_number, findRow QP.2 t.student_number with
  | some q, some p =>
    let epsilon := 2 * (t.rating - dot q p)
    let q_update := smul learning_rate
      (vsub (smul epsilon p) (smul (2 * regularization_parameter) q))
    let p_update := smul learning_rate
      (vsub (smul epsilon q) (smul (2 * regularization_parameter) p))
    .ok (setRow QP.1 t.course_number (vadd q q_update),
         setRow QP.2 t.student_number (vadd p p_update))
  | _, _ => .error .keyError

/-- One epoch of the SGD loop (`for line in f:`), in stored order. -/
def sgdEpoch (learning_rate regularization_parameter : ℚ)
    (QP : KeyedMatrix × KeyedMatrix) :
    List KnownRating → Except PyError (KeyedMatrix × KeyedMatrix)
  | [] => .ok QP
  | t :: ts =>
    match sgdStep learning_rate regularization_parameter QP t with
    | .ok QP₁ => sgdEpoch learning_rate regularization_parameter QP₁ ts
    | .error e => .error e

/-- `sum([term ** 2 for term in row])`. -/
def rowNormSq (v : Vec) : ℚ := (v.map (fun x => x ^ 2)).sum

/-- `sum(M.apply(lambda row: sum([term ** 2 for term in row])))`: the sum
of squared entries over every row present in the matrix. -/
def matNormSq (M : KeyedMatrix) : ℚ := (M.map (fun kv => rowNormSq kv.2)).sum

/-- The reconstruction part of the epoch error: the second
`for line in f:` loop, `E += (rating - np.dot(q, p)) ** 2`. -/
def reconstructionError (Q P : KeyedMatrix) :
    List KnownRating → Except PyError ℚ
  | [] => .ok 0
  | t :: ts =>
    match findRow Q t.course_number, findRow P t.student_number with
    | some q, some p =>
      match reconstructionError Q P ts with
      | .ok e => .ok ((t.rating - dot q p) ^ 2 + e)
      | .error er => .error er
    | _, _ => .error .keyError

/-- The per-epoch error computed after the epoch's updates:
`E = Σ (r - q·p)² + λ·Σ_rows(Q) ‖row‖² + λ·Σ_rows(P) ‖row‖²`. -/
def epochError (regularization_parameter : ℚ) (Q P : KeyedMatrix)
    (ratings : List KnownRating) : Except PyError ℚ :=
  match reconstructionError Q P ratings with
  | .ok e => .ok (e + regularization_parameter * matNormSq Q
                    + regularization_parameter * matNormSq P)
  | .error er => .error er

/-- `for epoch in range(epochs):` — run the SGD pass then append the
epoch error, returning the final matrices and the error trace. -/
def runEpochs (learning_rate regularization_parameter : ℚ)
    (ratings : List KnownRating) (QP : KeyedMatrix × KeyedMatrix) :
    Nat → Except PyError (KeyedMatrix × KeyedMatrix × List ℚ)
  | 0 => .ok (QP.1, QP.2, [])
  | n + 1 =>
    match sgdEpoch learning_rate regularization_parameter QP ratings with
    | .ok QP₁ =>
      match epochError regularization_parameter QP₁.1 QP₁.2 ratings with
      | .ok e =>
        match runEpochs learning_rate regularization_parameter ratings QP₁ n with
        | .ok (Qf, Pf, errs) => .ok (Qf, Pf, e :: errs)
        | .error er => .error er
      | .error er => .error er
    | .error er => .error er

/-- The state after a successful `train_model`: the persisted factor
matrices, the returned error trace, and the `trained` flag. -/
structure TrainResult where
  Q : KeyedMatrix
  P : KeyedMatrix
  errors : List ℚ
  trained : Bool
  deriving DecidableEq, Repr

/-- `train_model`: the initial matrices `Q0`, `P0` stand for the random
initialization (the claims quantify over every initialization, so it is
passed in explicitly).  Runs `epochs` epochs of online SGD over the
known ratings in stored order, saves the matrices and sets
`self.trained = True`.  The Python code performs no emptiness check on
the known-ratings set. -/
def train_model (learning_rate regularization_parameter : ℚ) (epochs : Nat)
    (Q0 P0 : KeyedMatrix) (ratings : List KnownRating) :
    Except PyError TrainResult :=
  match runEpochs learning_rate regularization_parameter ratings (Q0, P0) epochs with
  | .ok (Q, P, errors) => .ok ⟨Q, P, errors, true⟩
  | .error er => .error er

/-- The matrices as they stand after `n` full epochs of SGD updates
(no error bookkeeping). -/
def matricesAfter (learning_rate regularization_parameter : ℚ)
    (ratings : List KnownRating) (QP : KeyedMatrix × KeyedMatrix) :
    Nat → Except PyError (KeyedMatrix × KeyedMatrix)
  | 0 => .ok QP
  | n + 1 =>
    match sgdEpoch learning_rate regularization_parameter QP ratings with
    | .ok QP₁ => matricesAfter learning_rate regularization_parameter ratings QP₁ n
    | .error er => .error er

/-- The two recognized feedback verdicts (`class Ratings(enum.Enum)`). -/
inductive Ratings where
  | HELPFUL : Ratings
  | NOT_HELPFUL : Ratings
  deriving DecidableEq, Repr

/-- A `RecommendationRating` row: the feedback attached to a
recommendation, timestamped with `date.today()` at creation.  Dates are
modelled as day counts. -/
structure RecommendationRating where
  rating : Ratings
  date_added : Nat
  deriving DecidableEq, Repr

/-- A `Recommendation` row.  `rating` is the optional 1:1 feedback
(`uselist=False` relationship), `none` until `add_rating` runs. -/
structure Recommendation where
  student_number : String
  course_number : String
  correctness_probability : ℚ
  date_generated : Nat
  rating : Option RecommendationRating
  deriving DecidableEq, Repr

/-- `Recommendation.__init__` as invoked by `generate_recommendations`:
the `date_generated` parameter is left at its default, and that default
(`date_generated=date.today()`) was evaluated once, when the module was
imported — so every recommendation is stamped with `import_date`, not
with the date of the call.  No feedback is set. -/
def Recommendation.init (student_number course_number : String)
    (correctness_probability : ℚ) (import_date : Nat) : Recommendation :=
  { student_number := student_number
    course_number := course_number
    correctness_probability := correctness_probability
    date_generated := import_date
    rating := none }

/-- `Recommendation.add_rating`: builds a `RecommendationRating` (dated
today) and assigns it to `self.rating`, unconditionally — there is no
check for an already-present feedback, so an existing one is replaced. -/
def Recommendation.add_rating (rec : Recommendation) (rating_value : Ratings)
    (today : Nat) : Recommendation :=
  { rec with rating := some ⟨rating_value, today⟩ }

/-- A `Student` as seen by the recommender: their `student_number` and
the course numbers of their enrollments (engagements, rated or not). -/
structure Student where
  student_number : String
  enrollments : List String
  deriving DecidableEq, Repr

/-- The persisted state a `generate_recommendations` call reads:
the columns of the saved student-course matrix (the item universe), the
saved factor matrices `Q` and `P`, the `trained` flag, and the value of
`date.today()` captured at module-import time by the default argument of
`Recommendation.__init__`. -/
structure RecommendationSystem where
  course_numbers : List String
  Q : KeyedMatrix
  P : KeyedMatrix
  trained : Bool
  import_date : Nat
  deriving DecidableEq, Repr

/-- `[c for c in courses if c not in enrolled_in_courses]`: the courses
of the universe the student is not enrolled in. -/
def not_enrolled_in (sys : RecommendationSystem) (student : Student) :
    List String :=
  sys.course_numbers.filter (fun c => decide (c ∉ student.enrollments))

/-- `series.loc[keys]` on a score series: one entry per requested key in
request order; a missing key raises `KeyError`. -/
def selectScores (s : List (String × ℚ)) :
    List String → Except PyError (List (String × ℚ))
  | [] => .ok []
  | k :: ks =>
    match findRow s k with
    | some v =>
      match selectScores s ks with
      | .ok rest => .ok ((k, v) :: rest)
      | .error e => .error e
    | none => .error .keyError

/-- Insertion step of `sort_values(ascending=False)`: keeps scores in
non-increasing order (ties keep the later-inserted element after). -/
def insertDesc (x : String × ℚ) : List (String × ℚ) → List (String × ℚ)
  | [] => [x]
  | y :: ys => if y.2 < x.2 then x :: y :: ys else y :: insertDesc x ys

/-- `sort_values(ascending=False)` on a score series. -/
def sortDesc : List (String × ℚ) → List (String × ℚ)
  | [] => []
  | x :: xs => insertDesc x (sortDesc xs)

/-- `generate_recommendations(student, session, number_recommendations)`:
assert `number_recommendations in range(1, 4)`; assert `self.trained`;
complement = universe minus enrollments; cap the count by the complement
size; read `P.loc[student_number]` (KeyError if the student has no row);
score every item by dot product with the student's row; select the
complement's scores, sort descending, take the top, and build one
`Recommendation` per item with `correctness_probability = rating / 20`. -/
def generate_recommendations (sys : RecommendationSystem) (student : Student)
    (number_recommendations : ℤ) : Except PyError (List Recommendation) :=
  if ¬ (1 ≤ number_recommendations ∧ number_recommendations ≤ 3) then
    .error .invalidInput
  else if sys.trained = false then
    .error .notTrained
  else
    let not_enrolled_in_courses := not_enrolled_in sys student
    let capped := min number_recommendations (not_enrolled_in_courses.length : ℤ)
    match findRow sys.P student.student_number with
    | none => .error .keyError
    | some p_row =>
      let predicted_ratings := sys.Q.map (fun kv => (kv.1, dot kv.2 p_row))
      match selectScores predicted_ratings not_enrolled_in_courses with
      | .ok sel =>
        .ok (((sortDesc sel).take capped.toNat).map
          (fun cr => Recommendation.init student.student_number cr.1
            (cr.2 / 20) sys.import_date))
      | .error e => .error e

/-- One admissions row gathered by `reload_ratings`:
`[student_number, course_number, course_rating]`, the rating `None`
(NaN) when the enrollment was never rated. -/
structure Observation where
  student_number : String
  course_number : String
  rating : Option ℚ
  deriving DecidableEq, Repr

/-- Insertion step of an ascending sort on labels. -/
def insertAsc (x : String) : List String → List String
  | [] => [x]
  | y :: ys => if x ≤ y then x :: y :: ys else y :: insertAsc x ys

/-- Ascending sort on labels (pandas sorts index and column labels). -/
def sortAsc : List String → List String
  | [] => []
  | x :: xs => insertAsc x (sortAsc xs)

/-- The pivoted student-course matrix: sorted unique student numbers as
index, sorted unique course numbers as columns, one cell per present
rating. -/
structure StudentCourseMatrix where
  index : List String
  columns : List String
  cell : List ((String × String) × ℚ)
  deriving DecidableEq, Repr

/-- The matrix `long_df.pivot(...)` produces when it does not raise. -/
def pivotedView (obs : List Observation) : StudentCourseMatrix :=
  { index := sortAsc (obs.map (fun o => o.student_number)).eraseDups
    columns := sortAsc (obs.map (fun o => o.course_number)).eraseDups
    cell := obs.filterMap (fun o =>
      o.rating.map (fun r => ((o.student_number, o.course_number), r))) }

/-- `long_df.pivot(index='student_number', columns='course_number',
values='rating')`: raises `ValueError` ("Index contains duplicate
entries, cannot reshape") when some (student, course) pair occurs twice,
otherwise reshapes to the student × course matrix. -/
def pivot (obs : List Observation) : Except PyError StudentCourseMatrix :=
  if (obs.map (fun o => (o.student_number, o.course_number))).Nodup then
    .ok (pivotedView obs)
  else .error .valueError

/-- `long_df.dropna()` flattened to known-rating triples, in row order. -/
def knownRatingsOf (obs : List Observation) : List KnownRating :=
  obs.filterMap (fun o =>
    o.rating.map (fun r => ⟨o.student_number, o.course_number, r⟩))

/-- `reload_ratings`: build the long observation frame, pivot it into
the student-course matrix and drop the NaN rows for the known-ratings
view, then persist both (persisting is modelled by returning them). -/
def reload_ratings (obs : List Observation) :
    Except PyError (StudentCourseMatrix × List KnownRating) :=
  match pivot obs with
  | .ok scm => .ok (scm, knownRatingsOf obs)
  | .error e => .error e

/-- One field of a persisted CSV file: an index label or a number.
Numeric fields round-trip exactly (Python writes the shortest exact
decimal repr of a float and reads it back to the same float). -/
inductive CsvField where
  | str : String → CsvField
  | num : ℚ → CsvField
  deriving DecidableEq, Repr

/-- `df.to_csv(path, index=True)`: one line per row, the natural-key
index label first, then the row's numbers, in row order. -/
def to_csv (M : KeyedMatrix) : List (List CsvField) :=
  M.map (fun kv => .str kv.1 :: kv.2.map .num)

/-- `pd.read_csv(path, index_col=...)`: rebuild the keyed matrix from
the lines, taking the leading label as the row key. -/
def read_csv (rows : List (List CsvField)) : KeyedMatrix :=
  rows.filterMap (fun row =>
    match row with
    | .str k :: rest => some (k, rest.filterMap (fun f =>
        match f with
        | .num q => some q
        | .str _ => none))
    | _ => none)

/-! ### Shared helper lemmas -/

/-- With no known ratings, every epoch leaves the matrices untouched and
records the pure regularization error. -/
theorem runEpochs_nil_ratings (lr reg : ℚ) (QP : KeyedMatrix × KeyedMatrix) :
    ∀ n, runEpochs lr reg [] QP n =
      .ok (QP.1, QP.2,
        List.replicate n (0 + reg * matNormSq QP.1 + reg * matNormSq QP.2))
  | 0 => rfl
  | n + 1 => by
    simp only [runEpochs, sgdEpoch, epochError, reconstructionError,
      runEpochs_nil_ratings lr reg QP n, List.replicate]

/-! ### Claims -/

/-- C1: each SGD step reads the pre-update snapshot `q = Q.loc[i]`,
`p = P.loc[m]`, computes both row updates from that same snapshot with
`epsilon = 2 * (r - q·p)`, writes `q + η·(ε·p - 2λ·q)` and
`p + η·(ε·q - 2λ·p)` back, and the rest of the epoch continues from the
updated matrices: the next rating in stored order reads the updated
rows (true online SGD). -/
theorem sgd_step_snapshot_and_online
    (learning_rate regularization_parameter : ℚ) (Q P : KeyedMatrix)
    (m i : String) (r : ℚ) (ts : List KnownRating) (q p : Vec)
    (hq : findRow Q i = some q) (hp : findRow P m = some p) :
    sgdStep learning_rate regularization_parameter (Q, P) ⟨m, i, r⟩ =
      .ok (setRow Q i (vadd q (smul learning_rate
              (vsub (smul (2 * (r - dot q p)) p)
                    (smul (2 * regularization_parameter) q)))),
           setRow P m (vadd p (smul learning_rate
              (vsub (smul (2 * (r - dot q p)) q)
                    (smul (2 * regularization_parameter) p))))) ∧
    sgdEpoch learning_rate regularization_parameter (Q, P) (⟨m, i, r⟩ :: ts) =
      sgdEpoch learning_rate regularization_parameter
        (setRow Q i (vadd q (smul learning_rate
              (vsub (smul (2 * (r - dot q p)) p)
                    (smul (2 * regularization_parameter) q)))),
         setRow P m (vadd p (smul learning_rate
              (vsub (smul (2 * (r - dot q p)) q)
                    (smul (2 * regularization_parameter) p))))) ts := by
  constructor
  · simp [sgdStep, hq, hp]
  · simp [sgdEpoch, sgdStep, hq, hp]

/-- Witness for C1 at a concrete one-factor model: with `η = 1`,
`λ = 0`, `Q = [("c1", [1])]`, `P = [("s1", [2])]` and the single rating
`("s1", "c1", 3)`, the epoch ends with `Q.loc["c1"] = [5]` and
`P.loc["s1"] = [4]`. -/
theorem sgd_step_snapshot_and_online_witness :
    sgdEpoch 1 0 ([("c1", [1])], [("s1", [2])]) [⟨"s1", "c1", 3⟩] =
      .ok ([("c1", [5])], [("s1", [4])]) := by
  rw [(sgd_step_snapshot_and_online 1 0 [("c1", [1])] [("s1", [2])]
    "s1" "c1" 3 [] [1] [2] (by simp +decide [findRow])
    (by simp +decide [findRow])).2]
  simp +decide only [sgdEpoch, setRow, List.map]
  norm_num [vadd, vsub, smul, dot]

/-- C4 counterexample: invoked with zero known ratings (initialized
one-row matrices, `λ = 1`, 2 epochs), `train_model` refutes every clause
of the fail-fast claim at this concrete input: it does not fail (the
result is a value, not an exception), it runs both degenerate epochs
(trace `[2, 2]` of pure regularization error `λ·(‖Q‖² + ‖P‖²) = 2`),
it marks the model trained, and it persists the (unchanged) factor
matrices in the returned state. -/
theorem train_model_empty_no_failfast_cex :
    train_model 1 1 2 [("c1", [1])] [("s1", [1])] [] =
      .ok ⟨[("c1", [1])], [("s1", [1])], [2, 2], true⟩ ∧
    (train_model 1 1 2 [("c1", [1])] [("s1", [1])] []).toOption ≠ none ∧
    (TrainResult.mk [("c1", [1])] [("s1", [1])] [2, 2] true).trained = true ∧
    (TrainResult.mk [("c1", [1])] [("s1", [1])] [2, 2] true).errors.length
      = 2 := by
  have h : train_model 1 1 2 [("c1", [1])] [("s1", [1])] [] =
      .ok ⟨[("c1", [1])], [("s1", [1])], [2, 2], true⟩ := by
    norm_num [train_model, runEpochs_nil_ratings, matNormSq, rowNormSq,
      List.replicate]
  exact ⟨h, by rw [h]; simp [Except.toOption], rfl, rfl⟩

/-- C4 amended: with an empty known-ratings set `train_model` runs the
requested number of degenerate epochs instead of failing fast — every
epoch leaves the matrices unchanged, each trace entry is the pure
regularization error, the model is marked trained and the matrices are
persisted. -/
theorem train_model_empty_ratings_runs
    (lr reg : ℚ) (epochs : Nat) (Q0 P0 : KeyedMatrix) :
    train_model lr reg epochs Q0 P0 [] =
      .ok ⟨Q0, P0,
        List.replicate epochs (0 + reg * matNormSq Q0 + reg * matNormSq P0),
        true⟩ := by
  simp [train_model, runEpochs_nil_ratings]

/-- C5 counterexample: a second `add_rating` call on a recommendation
that already has a feedback does not fail — it succeeds and replaces the
first feedback with the second. -/
theorem add_rating_overwrites_cex :
    ((Recommendation.init "s1" "c1" (1 / 2) 0).add_rating .HELPFUL 1).add_rating
        .NOT_HELPFUL 2 =
      { student_number := "s1", course_number := "c1",
        correctness_probability := 1 / 2, date_generated := 0,
        rating := some ⟨.NOT_HELPFUL, 2⟩ } ∧
    some (⟨.NOT_HELPFUL, 2⟩ : RecommendationRating) ≠
      some (⟨.HELPFUL, 1⟩ : RecommendationRating) := by
  exact ⟨rfl, by simp⟩

/-- C5 amended: `add_rating` never fails on an already-rated
recommendation; it unconditionally assigns a fresh feedback, so the last
write wins regardless of any feedback already attached. -/
theorem add_rating_last_write_wins
    (rec : Recommendation) (v : Ratings) (d : Nat) :
    (rec.add_rating v d).rating = some ⟨v, d⟩ := rfl

/-- C7: `generate_recommendations` rejects a requested count outside
[1, 3] (`assert number_recommendations in range(1, 4)`), and — when the
count is valid — rejects an untrained model (`assert self.trained`);
both rejections return before any recommendation record is built. -/
theorem generate_recommendations_guards (sys : RecommendationSystem)
    (student : Student) (n : ℤ) :
    (¬ (1 ≤ n ∧ n ≤ 3) →
      generate_recommendations sys student n = .error .invalidInput) ∧
    ((1 ≤ n ∧ n ≤ 3) → sys.trained = false →
      generate_recommendations sys student n = .error .notTrained) := by
  constructor
  · intro h
    simp [generate_recommendations, h]
  · intro h ht
    simp [generate_recommendations, h, ht]

/-- Witness for C7: a request for 0 recommendations fails with the
invalid-input assertion, and a request for 2 against an untrained model
fails with the not-trained assertion. -/
theorem generate_recommendations_guards_witness :
    generate_recommendations ⟨["c1"], [], [], true, 0⟩ ⟨"s1", []⟩ 0 =
      .error .invalidInput ∧
    generate_recommendations ⟨["c1"], [], [], false, 0⟩ ⟨"s1", []⟩ 2 =
      .error .notTrained :=
  ⟨(generate_recommendations_guards ⟨["c1"], [], [], true, 0⟩ ⟨"s1", []⟩ 0).1
      (by decide),
   (generate_recommendations_guards ⟨["c1"], [], [], false, 0⟩ ⟨"s1", []⟩ 2).2
      (by decide) rfl⟩

/-- C10: on a trained model, a member whose `student_number` has no row
in `P` makes `generate_recommendations` raise the `KeyError` of
`P.loc[student_number]` instead of returning a list. -/
theorem generate_recommendations_missing_member_row
    (sys : RecommendationSystem) (student : Student) (n : ℤ)
    (h1 : 1 ≤ n) (h3 : n ≤ 3) (ht : sys.trained = true)
    (hp : findRow sys.P student.student_number = none) :
    generate_recommendations sys student n = .error .keyError := by
  simp [generate_recommendations, h1, h3, ht, hp]

/-- Witness for C10: a trained one-member model asked about a member
with no `P` row fails with `KeyError`. -/
theorem generate_recommendations_missing_member_row_witness :
    generate_recommendations ⟨["c1"], [("c1", [1])], [("s0", [1])], true, 0⟩
      ⟨"s1", []⟩ 1 = .error .keyError :=
  generate_recommendations_missing_member_row
    ⟨["c1"], [("c1", [1])], [("s0", [1])], true, 0⟩ ⟨"s1", []⟩ 1
    (by decide) (by decide) rfl (by simp +decide [findRow])

/-- C9: evaluating `generate_recommendations` on a concrete trained
model shows that each produced record carries
`correctness_probability = predicted_score / 20` and no feedback, but
its generation date is the module-import date (the def-time default of
`date_generated`, here day 100) — so a call made on any later day
(say day 101) still stamps day 100, contradicting "the date the
recommend call is made". -/
theorem recommendation_date_from_import_time :
    generate_recommendations
      ⟨["c1", "c2"], [("c1", [2]), ("c2", [1])], [("s1", [3])], true, 100⟩
      ⟨"s1", ["c1"]⟩ 1 =
      .ok [{ student_number := "s1", course_number := "c2",
             correctness_probability := 3 / 20, date_generated := 100,
             rating := none }] ∧
    (100 : Nat) ≠ 101 := by
  constructor
  · simp +decide [generate_recommendations, not_enrolled_in, findRow,
      selectScores, sortDesc, insertDesc, Recommendation.init, dot]
  · decide

/-- C6 counterexample: two observations for the same (member, item)
pair — possible since an enrollment key includes its start date — make
`reload_ratings` raise the pivot `ValueError` instead of producing
last-value-wins views. -/
theorem reload_ratings_duplicate_cex :
    reload_ratings [⟨"s1", "c1", some 5⟩, ⟨"s1", "c1", some 7⟩] =
      .error .valueError := by
  simp +decide [reload_ratings, pivot]

/-- C6 amended: `reload_ratings` succeeds with empty views on zero
observations, and succeeds deterministically on every observation set
whose (member, item) pairs are duplicate-free; but a duplicate
(member, item) pair makes the pandas `pivot` raise `ValueError`
("Index contains duplicate entries") rather than produce views. -/
theorem reload_ratings_behavior (obs : List Observation) :
    reload_ratings [] = .ok (⟨[], [], []⟩, []) ∧
    ((obs.map (fun o => (o.student_number, o.course_number))).Nodup →
      reload_ratings obs = .ok (pivotedView obs, knownRatingsOf obs)) ∧
    (¬ (obs.map (fun o => (o.student_number, o.course_number))).Nodup →
      reload_ratings obs = .error .valueError) := by
  refine ⟨by simp +decide [reload_ratings, pivot, pivotedView, knownRatingsOf],
    fun h => ?_, fun h => ?_⟩
  · simp [reload_ratings, pivot, h]
  · simp [reload_ratings, pivot, h]

/-- Witness for C6 (amended): a duplicate-free observation set, one
rating present and one absent, reloads into its pivoted view and its
known-ratings view. -/
theorem reload_ratings_behavior_witness :
    reload_ratings [⟨"s1", "c1", some 5⟩, ⟨"s2", "c1", none⟩] =
      .ok (pivotedView [⟨"s1", "c1", some 5⟩, ⟨"s2", "c1", none⟩],
           knownRatingsOf [⟨"s1", "c1", some 5⟩, ⟨"s2", "c1", none⟩]) :=
  (reload_ratings_behavior [⟨"s1", "c1", some 5⟩, ⟨"s2", "c1", none⟩]).2.1
    (by decide)

/-- Loading a saved keyed matrix restores it row for row. -/
theorem read_csv_to_csv (M : KeyedMatrix) : read_csv (to_csv M) = M := by
  induction M with
  | nil => rfl
  | cons kv rest ih =>
    simp only [to_csv, read_csv, List.map_cons, List.filterMap_cons] at ih ⊢
    rw [List.filterMap_map, Function.comp_def]
    simp only [List.filterMap_some]
    rw [ih]

/-- Key-based lookup does not depend on row order when the keys are
duplicate-free. -/
theorem findRow_perm {α : Type} {M M' : List (String × α)} (h : M.Perm M') :
    (M.map Prod.fst).Nodup → ∀ k, findRow M' k = findRow M k := by
  induction h with
  | nil => intro _ k; rfl
  | cons x _h ih =>
    intro hnd k
    simp only [List.map_cons, List.nodup_cons] at hnd
    by_cases hx : x.1 = k <;> simp [findRow, hx, ih hnd.2 k]
  | swap x y l =>
    intro hnd k
    simp only [List.map_cons, List.nodup_cons, List.mem_cons] at hnd
    have hxy : ¬ (y.1 = x.1) := fun e => hnd.1 (Or.inl e)
    by_cases hx : x.1 = k <;> by_cases hy : y.1 = k <;>
      simp [findRow, hx, hy]
    exact absurd (hy.trans hx.symm) hxy
  | trans h₁ _h₂ ih₁ ih₂ =>
    intro hnd k
    rw [ih₂ (((h₁.map Prod.fst).nodup_iff).mp hnd) k, ih₁ hnd k]

/-- C8: saving the factor matrices keyed by natural identifier
(`to_csv(path, index=True)`) and loading them back
(`read_csv(path, index_col=...)`) restores the same matrix, and the
resulting key-to-row mapping is unchanged under any reordering of the
saved rows (duplicate-free keys), for any non-empty factor model. -/
theorem parameters_round_trip (M M' : KeyedMatrix)
    (_hne : M ≠ []) (hperm : M.Perm M')
    (hnodup : (M.map Prod.fst).Nodup) :
    read_csv (to_csv M) = M ∧
    ∀ k, findRow (read_csv (to_csv M')) k = findRow M k := by
  refine ⟨read_csv_to_csv M, fun k => ?_⟩
  rw [read_csv_to_csv M']
  exact findRow_perm hperm hnodup k

/-- Witness for C8: a two-row matrix saved in reversed row order still
resolves key "a" to its original row after loading. -/
theorem parameters_round_trip_witness :
    findRow (read_csv (to_csv [("b", [2]), ("a", [1])])) "a" =
      findRow [("a", [1]), ("b", [2])] "a" :=
  (parameters_round_trip [("a", [1]), ("b", [2])] [("b", [2]), ("a", [1])]
    (by simp) (List.Perm.swap ("b", [2]) ("a", [1]) []) (by decide)).2 "a"

/-- Writing a row back leaves the index unchanged. -/
theorem setRow_keys (M : KeyedMatrix) (k : String) (v : Vec) :
    (setRow M k v).map Prod.fst = M.map Prod.fst := by
  simp only [setRow, List.map_map]
  apply List.map_congr_left
  intro kv _
  by_cases h : kv.1 = k <;> simp [h]

/-- A `.loc` read succeeds exactly for the labels of the index. -/
theorem findRow_isSome {α : Type} (M : List (String × α)) (k : String) :
    (findRow M k).isSome ↔ k ∈ M.map Prod.fst := by
  induction M with
  | nil => simp [findRow]
  | cons kv rest ih =>
    by_cases h : kv.1 = k
    · simp [findRow, h]
    · simp [findRow, h, ih, Ne.symm h]

/-- An SGD step whose rating refers to rows present in both matrices
succeeds and leaves both indices unchanged. -/
theorem sgdStep_ok_of_mem (lr reg : ℚ) (QP : KeyedMatrix × KeyedMatrix)
    (t : KnownRating)
    (hc : t.course_number ∈ QP.1.map Prod.fst)
    (hs : t.student_number ∈ QP.2.map Prod.fst) :
    ∃ QP', sgdStep lr reg QP t = .ok QP' ∧
      QP'.1.map Prod.fst = QP.1.map Prod.fst ∧
      QP'.2.map Prod.fst = QP.2.map Prod.fst := by
  obtain ⟨q, hq⟩ := Option.isSome_iff_exists.mp ((findRow_isSome _ _).mpr hc)
  obtain ⟨p, hp⟩ := Option.isSome_iff_exists.mp ((findRow_isSome _ _).mpr hs)
  have hstep : sgdStep lr reg QP t =
      .ok (setRow QP.1 t.course_number (vadd q (smul lr
              (vsub (smul (2 * (t.rating - dot q p)) p) (smul (2 * reg) q)))),
           setRow QP.2 t.student_number (vadd p (smul lr
              (vsub (smul (2 * (t.rating - dot q p)) q) (smul (2 * reg) p))))) := by
    simp [sgdStep, hq, hp]
  exact ⟨_, hstep, setRow_keys .., setRow_keys ..⟩

/-- An epoch over ratings that all refer to present rows succeeds and
leaves both indices unchanged. -/
theorem sgdEpoch_ok (lr reg : ℚ) :
    ∀ (ts : List KnownRating) (QP : KeyedMatrix × KeyedMatrix),
      (∀ t ∈ ts, t.course_number ∈ QP.1.map Prod.fst ∧
                 t.student_number ∈ QP.2.map Prod.fst) →
      ∃ QP', sgdEpoch lr reg QP ts = .ok QP' ∧
        QP'.1.map Prod.fst = QP.1.map Prod.fst ∧
        QP'.2.map Prod.fst = QP.2.map Prod.fst
  | [], QP, _ => ⟨QP, rfl, rfl, rfl⟩
  | t :: ts, QP, h => by
    obtain ⟨QP₁, h1, hk1, hk2⟩ :=
      sgdStep_ok_of_mem lr reg QP t (h t (by simp)).1 (h t (by simp)).2
    obtain ⟨QP₂, h2, hk1₂, hk2₂⟩ := sgdEpoch_ok lr reg ts QP₁ (fun u hu => by
      rw [hk1, hk2]; exact h u (by simp [hu]))
    exact ⟨QP₂, by simp [sgdEpoch, h1, h2],
      by rw [hk1₂, hk1], by rw [hk2₂, hk2]⟩

/-- The error loop succeeds when every rating refers to present rows. -/
theorem reconstructionError_ok (Q P : KeyedMatrix) :
    ∀ ts : List KnownRating,
      (∀ t ∈ ts, t.course_number ∈ Q.map Prod.fst ∧
                 t.student_number ∈ P.map Prod.fst) →
      ∃ e, reconstructionError Q P ts = .ok e
  | [], _ => ⟨0, rfl⟩
  | t :: ts, h => by
    obtain ⟨q, hq⟩ :=
      Option.isSome_iff_exists.mp ((findRow_isSome _ _).mpr (h t (by simp)).1)
    obtain ⟨p, hp⟩ :=
      Option.isSome_iff_exists.mp ((findRow_isSome _ _).mpr (h t (by simp)).2)
    obtain ⟨e, he⟩ := reconstructionError_ok Q P ts (fun u hu => h u (by simp [hu]))
    exact ⟨(t.rating - dot q p) ^ 2 + e, by simp [reconstructionError, hq, hp, he]⟩

/-- The per-epoch error succeeds when every rating refers to present
rows. -/
theorem epochError_ok (reg : ℚ) (Q P : KeyedMatrix) (ts : List KnownRating)
    (h : ∀ t ∈ ts, t.course_number ∈ Q.map Prod.fst ∧
                   t.student_number ∈ P.map Prod.fst) :
    ∃ e, epochError reg Q P ts = .ok e := by
  obtain ⟨e, he⟩ := reconstructionError_ok Q P ts h
  exact ⟨e + reg * matNormSq Q + reg * matNormSq P, by simp [epochError, he]⟩

/-- Full specification of the epoch loop: it succeeds, produces one
trace entry per epoch, and the k-th entry is the epoch error of the
matrices as they stand after epoch k's updates. -/
theorem runEpochs_spec (lr reg : ℚ) (ratings : List KnownRating) :
    ∀ (n : Nat) (QP : KeyedMatrix × KeyedMatrix),
      (∀ t ∈ ratings, t.course_number ∈ QP.1.map Prod.fst ∧
                      t.student_number ∈ QP.2.map Prod.fst) →
      ∃ Qf Pf errs, runEpochs lr reg ratings QP n = .ok (Qf, Pf, errs) ∧
        errs.length = n ∧
        ∀ k, k < n → ∃ Qk Pk e,
          matricesAfter lr reg ratings QP (k + 1) = .ok (Qk, Pk) ∧
          epochError reg Qk Pk ratings = .ok e ∧
          errs[k]? = some e
  | 0, QP, _ => ⟨QP.1, QP.2, [], rfl, rfl, fun k hk => absurd hk (by omega)⟩
  | n + 1, QP, h => by
    obtain ⟨QP₁, h1, hk1, hk2⟩ := sgdEpoch_ok lr reg ratings QP h
    have h' : ∀ t ∈ ratings, t.course_number ∈ QP₁.1.map Prod.fst ∧
        t.student_number ∈ QP₁.2.map Prod.fst := fun u hu => by
      rw [hk1, hk2]; exact h u hu
    obtain ⟨e, he⟩ := epochError_ok reg QP₁.1 QP₁.2 ratings h'
    obtain ⟨Qf, Pf, errs, h2, hlen, hspec⟩ := runEpochs_spec lr reg ratings n QP₁ h'
    refine ⟨Qf, Pf, e :: errs, by simp [runEpochs, h1, he, h2],
      by simp [hlen], fun k hk => ?_⟩
    cases k with
    | zero =>
      exact ⟨QP₁.1, QP₁.2, e, by simp [matricesAfter, h1], he, by simp⟩
    | succ m =>
      obtain ⟨Qk, Pk, e', hm, he', hg⟩ := hspec m (by omega)
      exact ⟨Qk, Pk, e', by simp only [matricesAfter, h1]; exact hm, he',
        by simpa using hg⟩

/-- C2: on a non-empty known-ratings set whose ratings all refer to rows
present in the initial matrices, training for `epochs > 0` epochs
succeeds and returns an error trace of length exactly `epochs` whose
k-th entry equals
`Σ (r - Q.loc[i]·P.loc[m])² + λ·Σ_rows(Q) ‖row‖² + λ·Σ_rows(P) ‖row‖²`
evaluated on the matrices as they stand after epoch k's updates, the
regularization sums ranging over every row of `Q` and `P`. -/
theorem train_model_error_trace (lr reg : ℚ) (epochs : Nat)
    (Q0 P0 : KeyedMatrix) (ratings : List KnownRating)
    (_hne : ratings ≠ []) (_hE : 0 < epochs)
    (hcons : ∀ t ∈ ratings, t.course_number ∈ Q0.map Prod.fst ∧
                            t.student_number ∈ P0.map Prod.fst) :
    ∃ res, train_model lr reg epochs Q0 P0 ratings = .ok res ∧
      res.errors.length = epochs ∧
      ∀ k, k < epochs → ∃ Qk Pk e,
        matricesAfter lr reg ratings (Q0, P0) (k + 1) = .ok (Qk, Pk) ∧
        epochError reg Qk Pk ratings = .ok e ∧
        res.errors[k]? = some e := by
  obtain ⟨Qf, Pf, errs, h, hlen, hspec⟩ :=
    runEpochs_spec lr reg ratings epochs (Q0, P0) hcons
  exact ⟨⟨Qf, Pf, errs, true⟩, by simp [train_model, h], hlen, hspec⟩

/-- Witness for C2: training one epoch on a consistent one-rating set
returns normally (the trace exists). -/
theorem train_model_error_trace_witness :
    (train_model 0 0 1 [("c1", [1])] [("s1", [1])]
      [⟨"s1", "c1", 1⟩]).toOption ≠ none := by
  obtain ⟨res, hres, -⟩ := train_model_error_trace 0 0 1 [("c1", [1])]
    [("s1", [1])] [⟨"s1", "c1", 1⟩] (by simp) (by decide)
    (by simp +decide [findRow])
  rw [hres]
  simp [Except.toOption]

/-- Descending insertion is a permutation of consing. -/
theorem insertDesc_perm (x : String × ℚ) (l : List (String × ℚ)) :
    (insertDesc x l).Perm (x :: l) := by
  induction l with
  | nil => exact List.Perm.refl _
  | cons z zs ih =>
    by_cases hc : z.2 < x.2
    · simp [insertDesc, hc]
    · simp only [insertDesc, if_neg hc]
      exact (ih.cons z).trans (List.Perm.swap x z zs)

/-- The descending sort permutes its input. -/
theorem sortDesc_perm (l : List (String × ℚ)) : (sortDesc l).Perm l := by
  induction l with
  | nil => exact List.Perm.refl _
  | cons x xs ih => exact (insertDesc_perm x (sortDesc xs)).trans (ih.cons x)

/-- A successful `.loc[keys]` selection returns exactly the requested
keys, in request order. -/
theorem selectScores_keys (s : List (String × ℚ)) :
    ∀ (ks : List String) (res : List (String × ℚ)),
      selectScores s ks = .ok res → res.map Prod.fst = ks
  | [], res, h => by
    simp only [selectScores] at h
    injection h with h
    subst h
    rfl
  | k :: ks, res, h => by
    simp only [selectScores] at h
    cases hf : findRow s k with
    | none => rw [hf] at h; simp at h
    | some v =>
      rw [hf] at h
      cases hr : selectScores s ks with
      | error e => rw [hr] at h; simp at h
      | ok rest =>
        rw [hr] at h
        injection h with h
        subst h
        simp [selectScores_keys s ks rest hr]

/-- C3: for a requested count in [1, 3], `generate_recommendations`
never returns a course the student is enrolled in (enrollment, not
rating, defines exclusion), never returns more than
`min(top_n, |complement|)` records, and — on a trained model with a row
for the student — returns an empty list, not an error, when the
complement of enrolled courses is empty. -/
theorem generate_recommendations_complement (sys : RecommendationSystem)
    (student : Student) (n : ℤ) (h1 : 1 ≤ n) (h3 : n ≤ 3) :
    (∀ recs, generate_recommendations sys student n = .ok recs →
      (∀ rec ∈ recs, rec.course_number ∉ student.enrollments) ∧
      recs.length ≤ min n.toNat (not_enrolled_in sys student).length) ∧
    (sys.trained = true →
      (∃ p_row, findRow sys.P student.student_number = some p_row) →
      not_enrolled_in sys student = [] →
      generate_recommendations sys student n = .ok []) := by
  have hcond : ¬ ¬ (1 ≤ n ∧ n ≤ 3) := not_not_intro ⟨h1, h3⟩
  constructor
  · intro recs h
    unfold generate_recommendations at h
    rw [if_neg hcond] at h
    cases htr : sys.trained with
    | false => rw [htr] at h; simp at h
    | true =>
      rw [htr] at h
      rw [if_neg (by simp : ¬ (true = false))] at h
      cases hp : findRow sys.P student.student_number with
      | none => rw [hp] at h; simp at h
      | some p_row =>
        rw [hp] at h
        simp only [] at h
        cases hsel : selectScores
            (List.map (fun kv => (kv.1, dot kv.2 p_row)) sys.Q)
            (not_enrolled_in sys student) with
        | error e => rw [hsel] at h; simp at h
        | ok sel =>
          rw [hsel] at h
          injection h with h
          subst h
          constructor
          · intro rec hrec
            obtain ⟨cr, hcr, hfeq⟩ := List.mem_map.mp hrec
            have hcr₁ : cr ∈ sortDesc sel := List.take_subset _ _ hcr
            have hcr₂ : cr ∈ sel := (sortDesc_perm sel).subset hcr₁
            have hkey : cr.1 ∈ List.map Prod.fst sel :=
              List.mem_map_of_mem _ hcr₂
            rw [selectScores_keys _ _ _ hsel] at hkey
            simp only [not_enrolled_in] at hkey
            have hdec := (List.mem_filter.mp hkey).2
            rw [← hfeq]
            exact of_decide_eq_true hdec
          · have hsl : (sortDesc sel).length =
                (not_enrolled_in sys student).length := by
              rw [(sortDesc_perm sel).length_eq]
              rw [← selectScores_keys _ _ _ hsel, List.length_map]
            have hmn : (min n
                ((not_enrolled_in sys student).length : ℤ)).toNat ≤ n.toNat :=
              Int.toNat_le_toNat (min_le_left _ _)
            calc (((sortDesc sel).take
                  (min n ((not_enrolled_in sys student).length : ℤ)).toNat).map
                    (fun cr => Recommendation.init student.student_number cr.1
                      (cr.2 / 20) sys.import_date)).length
                = min (min n
                    ((not_enrolled_in sys student).length : ℤ)).toNat
                    (sortDesc sel).length := by
                  simp [List.length_take]
              _ ≤ min n.toNat (not_enrolled_in sys student).length := by
                  rw [hsl]
                  exact min_le_min hmn (le_refl _)
  · intro htr hex hempty
    obtain ⟨p_row, hp⟩ := hex
    unfold generate_recommendations
    rw [if_neg hcond, htr]
    simp [hp, hempty, selectScores, sortDesc]

/-- Witness for C3: a trained one-course model queried for a student
enrolled in the whole universe returns the empty list rather than an
error. -/
theorem generate_recommendations_complement_witness :
    generate_recommendations ⟨["c1"], [("c1", [1])], [("s1", [2])], true, 0⟩
      ⟨"s1", ["c1"]⟩ 1 = .ok [] :=
  (generate_recommendations_complement
      ⟨["c1"], [("c1", [1])], [("s1", [2])], true, 0⟩ ⟨"s1", ["c1"]⟩ 1
      (by decide) (by decide)).2 rfl
    ⟨[2], by simp +decide [findRow]⟩ (by simp +decide [not_enrolled_in])
